import Mathlib

/-!
Verification development for the zotero-mcp core.

This file gives a shallow embedding of the document-extraction layer
(`src/zotero_mcp/local_db.py`, `src/zotero_mcp/utils.py`) and the
vector-index management layer (`src/zotero_mcp/chroma_client.py`), and
proves theorems settling the specification's claims about them.

Modelling conventions:
* Python strings are lists of characters (`Str`); Python `None` becomes
  `Option`; truthiness of an optional string (`if self.title:`) is
  `pyTruthy` (`None` and `""` are falsy).
* SQL query results are computed over an explicit relational database
  value (`ZoteroDb`), following SQLite's nested-loop LEFT JOIN,
  `GROUP BY` / `GROUP_CONCAT` (NULLs skipped), `ORDER BY` and `LIMIT`
  semantics.
* The ChromaDB backend is an injected collaborator: collection state is an
  association list of entries, backend outcomes of fallible calls are
  passed in as `Except` values, and embedding functions are identified by
  the provider they were constructed for.
-/

set_option maxRecDepth 4000

abbrev Str : Type := List Char

/-- Python truthiness of an optional string: `None` and the empty string
are falsy, every other string is truthy. -/
def pyTruthy : Option Str → Bool
  | none => false
  | some s => !s.isEmpty

/-- Python `a or b` on optional strings: yields `a` when `a` is truthy,
otherwise `b` (which may itself be falsy). -/
def pyOr (a b : Option Str) : Option Str :=
  if pyTruthy a then a else b

/-- Python `sep.join(parts)` on character-list strings. -/
def joinSep (sep : Str) : List Str → Str
  | [] => []
  | [p] => p
  | p :: q :: ps => p ++ sep ++ joinSep sep (q :: ps)

/-! ### `local_db.ZoteroItem` and `get_searchable_text` -/

def titleLabel : Str := "Title: ".data

def authorsLabel : Str := "Authors: ".data

def abstractLabel : Str := "Abstract: ".data

def extraLabel : Str := "Extra: ".data

def notesLabel : Str := "Notes: ".data

def contentLabel : Str := "Content: ".data

def sectionSep : Str := "\n\n".data

/-- The `ZoteroItem` dataclass of `local_db.py`: one bibliographic item
with its text content; all text fields are optional with default `None`. -/
structure ZoteroItem where
  item_id : Nat
  key : Str
  item_type_id : Nat
  title : Option Str := none
  abstract : Option Str := none
  creators : Option Str := none
  fulltext : Option Str := none
  notes : Option Str := none
  extra : Option Str := none
  date_added : Option Str := none
  date_modified : Option Str := none
deriving DecidableEq

/-- The truncation expression inside `get_searchable_text`:
`self.fulltext[:5000] + "..." if len(self.fulltext) > 5000 else self.fulltext`. -/
def truncatedFulltext (s : Str) : Str :=
  if 5000 < s.length then s.take 5000 ++ "...".data else s

/-- The `ZoteroItem.get_searchable_text` method: builds `parts` by appending
one labelled section per truthy field, in source order Title, Authors,
Abstract, Extra, Notes, Content (fulltext truncated), then joins the parts
with a blank line. -/
def ZoteroItem.get_searchable_text (it : ZoteroItem) : Str :=
  let parts : List Str := []
  let parts := if pyTruthy it.title then parts ++ [titleLabel ++ it.title.getD []] else parts
  let parts := if pyTruthy it.creators then parts ++ [authorsLabel ++ it.creators.getD []] else parts
  let parts := if pyTruthy it.abstract then parts ++ [abstractLabel ++ it.abstract.getD []] else parts
  let parts := if pyTruthy it.extra then parts ++ [extraLabel ++ it.extra.getD []] else parts
  let parts := if pyTruthy it.notes then parts ++ [notesLabel ++ it.notes.getD []] else parts
  let parts := if pyTruthy it.fulltext then parts ++ [contentLabel ++ truncatedFulltext (it.fulltext.getD [])] else parts
  joinSep sectionSep parts

/-- Truncation never turns a non-empty fulltext into an empty one, nor the
other way round. -/
theorem truncatedFulltext_isEmpty (s : Str) :
    (truncatedFulltext s).isEmpty = s.isEmpty := by
  rw [truncatedFulltext]
  split
  · rename_i h
    have hs : s ≠ [] := by intro hnil; rw [hnil] at h; simp at h
    have h1 : s.isEmpty = false := by simp [List.isEmpty_iff, hs]
    have h2 : (s.take 5000 ++ "...".data).isEmpty = false := by
      simp [List.isEmpty_iff]
    rw [h1, h2]
  · rfl

/-- Truthiness of the truncated fulltext agrees with truthiness of the raw
fulltext. -/
theorem pyTruthy_map_truncatedFulltext (o : Option Str) :
    pyTruthy (Option.map truncatedFulltext o) = pyTruthy o := by
  cases o with
  | none => rfl
  | some s => simp [pyTruthy, truncatedFulltext_isEmpty]

@[simp]
theorem pyTruthy_none : pyTruthy none = false := rfl

theorem pyTruthy_some_truncated (s : Str) :
    pyTruthy (some (truncatedFulltext s)) = pyTruthy (some s) := by
  simp [pyTruthy, truncatedFulltext_isEmpty]

/-- Specification-side view of the searchable text: the six candidate
sections, as `(label, optional rendered content)` pairs, in the fixed
order Title, Authors, Abstract, Extra, Notes, Content (the Content
candidate already carries the truncated fulltext). -/
def sectionCandidates (it : ZoteroItem) : List (Str × Option Str) :=
  [(titleLabel, it.title), (authorsLabel, it.creators), (abstractLabel, it.abstract),
   (extraLabel, it.extra), (notesLabel, it.notes),
   (contentLabel, Option.map truncatedFulltext it.fulltext)]

/-- Specification-side view: one `(label, content)` section per populated
field, in the fixed order Title, Authors, Abstract, Extra, Notes, Content. -/
def searchableSections (it : ZoteroItem) : List (Str × Str) :=
  (sectionCandidates it).filterMap fun p =>
    if pyTruthy p.2 then some (p.1, p.2.getD []) else none

theorem joinSep_ne_nil_of_head_ne_nil (sep p : Str) (ps : List Str) (hp : p ≠ []) :
    joinSep sep (p :: ps) ≠ [] := by
  cases ps with
  | nil => simpa [joinSep] using hp
  | cons q qs =>
      simp only [joinSep]
      intro h
      exact hp (List.append_eq_nil.mp (List.append_eq_nil.mp h).1).1

theorem joinSep_eq_nil_iff (sep : Str) (parts : List Str)
    (h : ∀ p ∈ parts, p ≠ []) : joinSep sep parts = [] ↔ parts = [] := by
  cases parts with
  | nil => simp [joinSep]
  | cons p ps => simp [joinSep_ne_nil_of_head_ne_nil sep p ps (h p (by simp))]

/-- Labels occurring in the section list all come from the candidate list. -/
theorem sectionLabels_subset (l : List (Str × Option Str)) :
    ∀ x ∈ (l.filterMap fun p => if pyTruthy p.2 then some (p.1, p.2.getD []) else none).map Prod.fst,
      x ∈ l.map Prod.fst := by
  intro x hx
  simp only [List.mem_map, List.mem_filterMap] at hx
  obtain ⟨q, ⟨p, hp, hfp⟩, hxq⟩ := hx
  split at hfp
  · cases hfp
    exact hxq ▸ List.mem_map_of_mem Prod.fst hp
  · cases hfp

/-- Counting a label among the produced sections: when the candidate labels
are pairwise distinct, a candidate's label appears exactly once if its field
is populated and not at all otherwise. -/
theorem count_sectionLabels (l : List (Str × Option Str)) (lab : Str) (fld : Option Str)
    (hnd : (l.map Prod.fst).Nodup) (hmem : (lab, fld) ∈ l) :
    ((l.filterMap fun p => if pyTruthy p.2 then some (p.1, p.2.getD []) else none).map Prod.fst).count lab
      = if pyTruthy fld then 1 else 0 := by
  induction l with
  | nil => simp at hmem
  | cons a l ih =>
    simp only [List.map_cons, List.nodup_cons] at hnd
    obtain ⟨ha, hnd'⟩ := hnd
    rcases List.mem_cons.mp hmem with heq | htail
    · subst heq
      have hzero :
          ((l.filterMap fun p => if pyTruthy p.2 then some (p.1, p.2.getD []) else none).map Prod.fst).count lab
            = 0 := by
        rw [List.count_eq_zero]
        intro hmemlab
        exact ha (sectionLabels_subset l lab hmemlab)
      cases hft : pyTruthy fld <;>
        simp [List.filterMap_cons, hft, hzero, List.count_cons]
    · have hlabmem : lab ∈ l.map Prod.fst := List.mem_map_of_mem Prod.fst htail
      have hne : a.1 ≠ lab := fun h => ha (h ▸ hlabmem)
      have hrec := ih hnd' htail
      cases hpa : pyTruthy a.2 <;>
        simp [List.filterMap_cons, hpa, hrec, List.count_cons, hne]

/-- C5: `get_searchable_text` is the blank-line join of exactly one labelled
section per populated field, in the fixed order Title, Authors, Abstract,
Extra, Notes, Content; it is empty iff every field is unpopulated (hence
non-empty as soon as one text field is non-empty); and each of the six
labels heads exactly one section when its field is populated and none
otherwise. -/
theorem searchable_text_sections (it : ZoteroItem) :
    it.get_searchable_text
      = joinSep sectionSep ((searchableSections it).map fun p => p.1 ++ p.2)
    ∧ (it.get_searchable_text = [] ↔
        (pyTruthy it.title = false ∧ pyTruthy it.creators = false ∧
         pyTruthy it.abstract = false ∧ pyTruthy it.extra = false ∧
         pyTruthy it.notes = false ∧ pyTruthy it.fulltext = false))
    ∧ (∀ lab fld, (lab, fld) ∈ sectionCandidates it →
        ((searchableSections it).map Prod.fst).count lab = if pyTruthy fld then 1 else 0) := by
  have hjoin : it.get_searchable_text
      = joinSep sectionSep ((searchableSections it).map fun p => p.1 ++ p.2) := by
    cases hft : it.fulltext with
    | none =>
        cases hT : pyTruthy it.title <;> cases hC : pyTruthy it.creators <;>
          cases hAb : pyTruthy it.abstract <;> cases hE : pyTruthy it.extra <;>
          cases hN : pyTruthy it.notes <;>
            simp [ZoteroItem.get_searchable_text, searchableSections, sectionCandidates,
              hft, hT, hC, hAb, hE, hN]
    | some s =>
        cases hT : pyTruthy it.title <;> cases hC : pyTruthy it.creators <;>
          cases hAb : pyTruthy it.abstract <;> cases hE : pyTruthy it.extra <;>
          cases hN : pyTruthy it.notes <;> cases hF : pyTruthy (some s) <;>
            simp [ZoteroItem.get_searchable_text, searchableSections, sectionCandidates,
              hft, hT, hC, hAb, hE, hN, hF, pyTruthy_some_truncated]
  have hlabels : ∀ q ∈ searchableSections it, q.1 ≠ [] := by
    intro q hq
    have hmemlab : q.1 ∈ (sectionCandidates it).map Prod.fst :=
      sectionLabels_subset _ _ (List.mem_map_of_mem Prod.fst hq)
    have hlist : (sectionCandidates it).map Prod.fst
        = [titleLabel, authorsLabel, abstractLabel, extraLabel, notesLabel, contentLabel] := by
      simp [sectionCandidates]
    rw [hlist] at hmemlab
    simp only [List.mem_cons, List.not_mem_nil, or_false] at hmemlab
    rcases hmemlab with h | h | h | h | h | h <;> (rw [h]; decide)
  refine ⟨hjoin, ?_, ?_⟩
  · rw [hjoin, joinSep_eq_nil_iff]
    · simp only [List.map_eq_nil_iff, searchableSections, List.filterMap_eq_nil_iff]
      simp [sectionCandidates, pyTruthy_map_truncatedFulltext]
    · intro p hp
      obtain ⟨q, hq, rfl⟩ := List.mem_map.mp hp
      intro hnil
      exact hlabels q hq (List.append_eq_nil.mp hnil).1
  · intro lab fld hmem
    have hnd : ((sectionCandidates it).map Prod.fst).Nodup := by
      have : (sectionCandidates it).map Prod.fst
          = [titleLabel, authorsLabel, abstractLabel, extraLabel, notesLabel, contentLabel] := by
        simp [sectionCandidates]
      rw [this]
      decide
    exact count_sectionLabels (sectionCandidates it) lab fld hnd hmem

/-- C4: for a fulltext longer than 5000 characters the Content section of
`get_searchable_text` is exactly the first 5000 characters followed by the
fixed ellipsis marker; for length at most 5000 the fulltext is reproduced
verbatim with no marker. -/
theorem fulltext_truncation (s : Str) :
    (5000 < s.length →
      ZoteroItem.get_searchable_text { item_id := 0, key := [], item_type_id := 0, fulltext := some s }
          = contentLabel ++ (s.take 5000 ++ "...".data)
        ∧ (s.take 5000).length = 5000)
    ∧ (s.length ≤ 5000 → 0 < s.length →
      ZoteroItem.get_searchable_text { item_id := 0, key := [], item_type_id := 0, fulltext := some s }
          = contentLabel ++ s) := by
  constructor
  · intro h
    have hne : s ≠ [] := by
      intro hnil; rw [hnil] at h; simp at h
    constructor
    · simp [ZoteroItem.get_searchable_text, pyTruthy, truncatedFulltext, joinSep,
        List.isEmpty_iff, hne, h]
    · rw [List.length_take]
      omega
  · intro h hpos
    have hne : s ≠ [] := List.ne_nil_of_length_pos hpos
    have hnot : ¬ 5000 < s.length := by omega
    simp [ZoteroItem.get_searchable_text, pyTruthy, truncatedFulltext, joinSep,
      List.isEmpty_iff, hne, hnot]

/-- Witness for C4 at concrete inputs: a 5001-character fulltext is cut to
its first 5000 characters plus the marker, and a 1-character fulltext is
kept verbatim. -/
theorem fulltext_truncation_witness :
    (ZoteroItem.get_searchable_text
        { item_id := 0, key := [], item_type_id := 0, fulltext := some (List.replicate 5001 'a') }
          = contentLabel ++ ((List.replicate 5001 'a').take 5000 ++ "...".data)
      ∧ ((List.replicate 5001 'a').take 5000).length = 5000)
    ∧ ZoteroItem.get_searchable_text { item_id := 0, key := [], item_type_id := 0, fulltext := some ['b'] }
        = contentLabel ++ ['b'] := by
  refine ⟨(fulltext_truncation (List.replicate 5001 'a')).1 ?_,
    (fulltext_truncation ['b']).2 ?_ ?_⟩
  · rw [List.length_replicate]; norm_num
  · simp
  · simp

/-! ### `utils.format_creators` -/

/-- One creator object as handed to `utils.format_creators`: a Python dict
whose keys `firstName`, `lastName`, `name` may each be present (possibly
with an empty-string value) or absent. -/
structure PyCreator where
  firstName : Option Str := none
  lastName : Option Str := none
  name : Option Str := none
deriving DecidableEq

/-- The loop body of `format_creators`: `if "firstName" in creator and
"lastName" in creator` renders `Last, First`; `elif "name" in creator`
renders the bare name; otherwise the creator contributes nothing. -/
def renderCreator (c : PyCreator) : Option Str :=
  match c.firstName, c.lastName, c.name with
  | some f, some l, _ => some (l ++ ", ".data ++ f)
  | _, _, some n => some n
  | _, _, none => none

/-- The `utils.format_creators` function. -/
def format_creators (creators : List PyCreator) : Str :=
  let names := creators.filterMap renderCreator
  if names.isEmpty then "No authors listed".data else joinSep "; ".data names

/-- C10 counterexample: a single creator whose `name` key holds the empty
string makes `format_creators` return the empty string, so it is not true
that `format_creators` never returns the empty string. -/
theorem format_creators_empty_string :
    format_creators [⟨none, none, some []⟩] = [] := by rfl

/-- C10 amended: `format_creators` returns the sentinel for an empty list
and whenever no creator has both `firstName` and `lastName` keys nor a
`name` key; a creator carrying only a `name` key is rendered by that name
value (hence, when that value is the empty string, the result can be the
empty string rather than the sentinel). -/
theorem format_creators_sentinel_and_name :
    format_creators [] = "No authors listed".data
    ∧ (∀ cs : List PyCreator,
        (∀ c ∈ cs, (c.firstName.isSome && c.lastName.isSome) = false ∧ c.name = none) →
        format_creators cs = "No authors listed".data)
    ∧ (∀ (f l : Option Str) (n : Str), (f.isSome && l.isSome) = false →
        format_creators [⟨f, l, some n⟩] = n) := by
  refine ⟨rfl, ?_, ?_⟩
  · intro cs hcs
    have hnil : cs.filterMap renderCreator = [] := by
      rw [List.filterMap_eq_nil_iff]
      intro c hc
      obtain ⟨h1, h2⟩ := hcs c hc
      cases hf : c.firstName <;> cases hl : c.lastName <;>
        simp_all [renderCreator]
    simp [format_creators, hnil]
  · intro f l n h
    cases hf : f <;> cases hl : l <;>
      simp_all [format_creators, renderCreator, joinSep]

/-- Witness for C10 amended at concrete inputs: a creator with only a
`lastName` key yields the sentinel, and a creator with only a `name` key is
rendered by that name. -/
theorem format_creators_sentinel_and_name_witness :
    format_creators [⟨none, some "Smith".data, none⟩] = "No authors listed".data
    ∧ format_creators [⟨none, none, some "Acme Lab".data⟩] = "Acme Lab".data := by
  constructor
  · refine format_creators_sentinel_and_name.2.1 _ ?_
    intro c hc
    rw [List.mem_singleton] at hc
    subst hc
    exact ⟨rfl, rfl⟩
  · exact format_creators_sentinel_and_name.2.2 none none "Acme Lab".data rfl

/-! ### `chroma_client` embedding functions -/

/-- The three embedding-provider variants selectable through
`ChromaClient._create_embedding_function`. -/
inductive Provider where
  | default
  | openai
  | gemini
deriving DecidableEq

/-- Python-level errors raised during embedding-function construction. -/
inductive PyError where
  | valueError (msg : Str)
  | importError (msg : Str)
deriving DecidableEq

/-- A constructed embedding function: the provider it is bound to together
with the state set in `__init__` (model name, resolved API key). -/
structure EmbeddingFn where
  provider : Provider
  model_name : Str
  api_key : Option Str
deriving DecidableEq

/-- An embedding is modelled as the pair of the provider that computed it
and the embedded text: the only property the manager relies on is which
provider's vector space a vector lives in. -/
def EmbeddingFn.embed (ef : EmbeddingFn) (text : Str) : Provider × Str :=
  (ef.provider, text)

def openaiKeyVar : Str := "OPENAI_API_KEY".data

def geminiKeyVar : Str := "GEMINI_API_KEY".data

def googleKeyVar : Str := "GOOGLE_API_KEY".data

/-- The `OpenAIEmbeddingFunction.__init__` constructor: resolves the key as
`api_key or os.getenv("OPENAI_API_KEY")`, raises `ValueError` when the
resolved key is falsy, and only then attempts the `openai` import
(`importable` models whether the package is installed). -/
def OpenAIEmbeddingFunction.construct (model_name : Str) (api_key : Option Str)
    (env : Str → Option Str) (importable : Bool) : Except PyError EmbeddingFn :=
  let key := pyOr api_key (env openaiKeyVar)
  if pyTruthy key then
    if importable then .ok ⟨.openai, model_name, key⟩
    else .error (.importError "openai package is required for OpenAI embeddings".data)
  else .error (.valueError "OpenAI API key is required".data)

/-- The `GeminiEmbeddingFunction.__init__` constructor: resolves the key as
`api_key or os.getenv("GEMINI_API_KEY") or os.getenv("GOOGLE_API_KEY")`,
raises `ValueError` when the resolved key is falsy, then attempts the
`google-genai` import. -/
def GeminiEmbeddingFunction.construct (model_name : Str) (api_key : Option Str)
    (env : Str → Option Str) (importable : Bool) : Except PyError EmbeddingFn :=
  let key := pyOr api_key (pyOr (env geminiKeyVar) (env googleKeyVar))
  if pyTruthy key then
    if importable then .ok ⟨.gemini, model_name, key⟩
    else .error (.importError "google-genai package is required for Gemini embeddings".data)
  else .error (.valueError "Gemini API key is required".data)

/-- C6: for both remote providers, when no truthy API key is supplied
explicitly and none is resolvable from the environment, construction
returns a configuration error (`ValueError`) immediately — there is no
constructed embedding function left whose first call could fail later. -/
theorem embedding_key_fail_fast (model_name : Str) (api_key : Option Str)
    (env : Str → Option Str) (importable : Bool) :
    (pyTruthy api_key = false → pyTruthy (env openaiKeyVar) = false →
      OpenAIEmbeddingFunction.construct model_name api_key env importable
        = .error (.valueError "OpenAI API key is required".data))
    ∧ (pyTruthy api_key = false → pyTruthy (env geminiKeyVar) = false →
        pyTruthy (env googleKeyVar) = false →
      GeminiEmbeddingFunction.construct model_name api_key env importable
        = .error (.valueError "Gemini API key is required".data)) := by
  constructor
  · intro h1 h2
    simp [OpenAIEmbeddingFunction.construct, pyOr, h1, h2]
  · intro h1 h2 h3
    simp [GeminiEmbeddingFunction.construct, pyOr, h1, h2, h3]

/-- Witness for C6 at a concrete input: with no explicit key and an empty
environment both constructors fail with the configuration error. -/
theorem embedding_key_fail_fast_witness :
    OpenAIEmbeddingFunction.construct "text-embedding-3-small".data none (fun _ => none) true
        = .error (.valueError "OpenAI API key is required".data)
    ∧ GeminiEmbeddingFunction.construct "models/text-embedding-004".data none (fun _ => none) true
        = .error (.valueError "Gemini API key is required".data) := by
  exact ⟨(embedding_key_fail_fast _ none (fun _ => none) true).1 rfl rfl,
         (embedding_key_fail_fast _ none (fun _ => none) true).2 rfl rfl rfl⟩

/-! ### `chroma_client.ChromaClient`: construction and provider binding -/

/-- The `embedding_config` dict handed to `ChromaClient`: the two keys its
code reads, each possibly absent. -/
structure EmbeddingConfig where
  api_key : Option Str := none
  model_name : Option Str := none
deriving DecidableEq

/-- `ChromaClient._create_embedding_function`: dispatches on the
`embedding_model` string, reading the model name from the config with the
source defaults; any other value selects ChromaDB's default embedding
function (all-MiniLM-L6-v2, no credentials). -/
def ChromaClient.createEmbeddingFunction (embedding_model : Str) (cfg : EmbeddingConfig)
    (env : Str → Option Str) (importable : Bool) : Except PyError EmbeddingFn :=
  if embedding_model = "openai".data then
    OpenAIEmbeddingFunction.construct (cfg.model_name.getD "text-embedding-3-small".data)
      cfg.api_key env importable
  else if embedding_model = "gemini".data then
    GeminiEmbeddingFunction.construct (cfg.model_name.getD "models/text-embedding-004".data)
      cfg.api_key env importable
  else
    .ok ⟨.default, "all-MiniLM-L6-v2".data, none⟩

/-- One stored document of a collection: text, metadata, and the vector the
bound embedding function produced for the text. -/
structure CollectionEntry where
  document : Str
  metadata : List (Str × Str)
  embedding : Provider × Str
deriving DecidableEq

/-- Persisted state of one collection: an association list from document id
to stored entry. -/
abbrev CollectionData := List (Str × CollectionEntry)

/-- The persisted ChromaDB store at one location: collections by name. -/
abbrev ChromaStore := List (Str × CollectionData)

/-- A collection handle as chromadb returns it: the name plus the embedding
function the *caller* attached at `get_or_create_collection` time.
chromadb persists the collection's documents, not its embedding function. -/
structure CollectionHandle where
  name : Str
  embedding_function : EmbeddingFn
deriving DecidableEq

/-- chromadb `get_or_create_collection`: reuses the persisted collection
when the name exists (creating it empty otherwise) and attaches the
embedding function supplied by this call to the returned handle. -/
def getOrCreateCollection (store : ChromaStore) (name : Str) (ef : EmbeddingFn) :
    ChromaStore × CollectionHandle :=
  if store.any (fun c => decide (c.1 = name)) then (store, ⟨name, ef⟩)
  else (store ++ [(name, [])], ⟨name, ef⟩)

/-- The state a successfully constructed `ChromaClient` holds. -/
structure ChromaClientState where
  collection_name : Str
  embedding_model : Str
  embedding_config : EmbeddingConfig
  embedding_function : EmbeddingFn
  collection : CollectionHandle
deriving DecidableEq

/-- `ChromaClient.__init__`: creates the embedding function from this
construction's `embedding_model` argument, then get-or-creates the named
collection with that embedding function attached. -/
def ChromaClient.construct (store : ChromaStore) (collection_name embedding_model : Str)
    (embedding_config : EmbeddingConfig) (env : Str → Option Str) (importable : Bool) :
    Except PyError (ChromaStore × ChromaClientState) :=
  match ChromaClient.createEmbeddingFunction embedding_model embedding_config env importable with
  | .error e => .error e
  | .ok ef =>
      let sc := getOrCreateCollection store collection_name ef
      .ok (sc.1, ⟨collection_name, embedding_model, embedding_config, ef, sc.2⟩)

/-- `ChromaClient.search` embeds each query text with the embedding
function attached to the client's collection handle. -/
def ChromaClient.queryEmbeddings (c : ChromaClientState) (query_texts : List Str) :
    List (Provider × Str) :=
  query_texts.map c.collection.embedding_function.embed

/-- Environment for the C1 scenario: both remote API keys available. -/
def bothKeysEnv : Str → Option Str := fun v =>
  if v = openaiKeyVar then some "sk-test".data
  else if v = geminiKeyVar then some "gm-test".data
  else none

/-- C1 evaluated on the code: create the collection `zotero_library` through
a manager constructed with provider `openai`, then construct a second
manager against the now-existing collection with `gemini` requested; the
second manager embeds query texts in gemini's vector space, not openai's —
the creation-time provider binding is not reused. -/
theorem provider_binding_not_sticky :
    (match ChromaClient.construct [] "zotero_library".data "openai".data {} bothKeysEnv true with
     | .ok (s1, _) =>
        match ChromaClient.construct s1 "zotero_library".data "gemini".data {} bothKeysEnv true with
        | .ok (_, c2) => ChromaClient.queryEmbeddings c2 ["neural networks".data]
        | .error _ => []
     | .error _ => []) = [(Provider.gemini, "neural networks".data)]
    ∧ Provider.gemini ≠ Provider.openai := by
  exact ⟨by decide, by decide⟩

/-! ### `chroma_client.ChromaClient`: operation error paths

Each operation wraps one backend call in `try/except`; the backend outcome
is injected as an `Except` value and the operation returns its Python-level
result together with the list of log lines it emits. -/

def natStr (n : Nat) : Str := (Nat.repr n).data

/-- `ChromaClient.add_documents`: logs and re-raises backend errors. -/
def ChromaClient.add_documents (backend : Except Str Unit) (documents : List Str) :
    Except Str Unit × List Str :=
  match backend with
  | .ok _ => (.ok (),
      ["Added ".data ++ natStr documents.length ++ " documents to ChromaDB collection".data])
  | .error e => (.error e, ["Error adding documents to ChromaDB: ".data ++ e])

/-- `ChromaClient.upsert_documents` (logging wrapper): logs and re-raises
backend errors. -/
def ChromaClient.upsert_documents_run (backend : Except Str Unit) (documents : List Str) :
    Except Str Unit × List Str :=
  match backend with
  | .ok _ => (.ok (),
      ["Upserted ".data ++ natStr documents.length ++ " documents to ChromaDB collection".data])
  | .error e => (.error e, ["Error upserting documents to ChromaDB: ".data ++ e])

/-- Result shape of a chromadb query: the matched ids, one list per query
text (the log line reads the length of the first one). -/
structure ChromaQueryResult where
  ids : List (List Str)
deriving DecidableEq

/-- `ChromaClient.search`: logs and re-raises backend errors. -/
def ChromaClient.search_run (backend : Except Str ChromaQueryResult) :
    Except Str ChromaQueryResult × List Str :=
  match backend with
  | .ok r => (.ok r,
      ["Semantic search returned ".data ++ natStr (r.ids.headD []).length ++ " results".data])
  | .error e => (.error e, ["Error performing semantic search: ".data ++ e])

/-- `ChromaClient.delete_documents`: logs and re-raises backend errors. -/
def ChromaClient.delete_documents (backend : Except Str Unit) (ids : List Str) :
    Except Str Unit × List Str :=
  match backend with
  | .ok _ => (.ok (),
      ["Deleted ".data ++ natStr ids.length ++ " documents from ChromaDB collection".data])
  | .error e => (.error e, ["Error deleting documents from ChromaDB: ".data ++ e])

/-- `ChromaClient.reset_collection`: logs and re-raises backend errors. -/
def ChromaClient.reset_collection (backend : Except Str Unit) (name : Str) :
    Except Str Unit × List Str :=
  match backend with
  | .ok _ => (.ok (), ["Reset ChromaDB collection \x27".data ++ name ++ "\x27".data])
  | .error e => (.error e, ["Error resetting collection: ".data ++ e])

/-- The dict `ChromaClient.get_collection_info` returns. -/
structure CollectionInfo where
  name : Str
  count : Nat
  embedding_model : Str
  persist_directory : Str
  error : Option Str := none
deriving DecidableEq

/-- `ChromaClient.get_collection_info`: catches backend errors and returns a
degraded result with count 0 and the error field populated (after logging). -/
def ChromaClient.get_collection_info (name embedding_model persist_directory : Str)
    (backendCount : Except Str Nat) : CollectionInfo × List Str :=
  match backendCount with
  | .ok n => (⟨name, n, embedding_model, persist_directory, none⟩, [])
  | .error e => (⟨name, 0, embedding_model, persist_directory, some e⟩,
      ["Error getting collection info: ".data ++ e])

/-- `ChromaClient.document_exists`: returns whether the backend `get` for
the id found it; catches *any* backend error and returns `False`, without
logging and without re-raising. -/
def ChromaClient.document_exists (backendGet : Except Str (List Str)) :
    Except Str Bool × List Str :=
  match backendGet with
  | .ok ids => (.ok (decide (0 < ids.length)), [])
  | .error _ => (.ok false, [])

/-- C2 counterexample: on a backend error, `document_exists` returns the
normal value `False` instead of re-raising the error — so `info()` is not
the sole operation that catches backend errors. -/
theorem document_exists_swallows_backend_error :
    ChromaClient.document_exists (.error "backend unreachable".data) = (.ok false, [])
    ∧ (Except.ok false : Except Str Bool) ≠ .error "backend unreachable".data := by
  exact ⟨rfl, by simp⟩

/-- C2 amended: `get_collection_info` and `document_exists` are the two
operations that catch backend errors — info returns a degraded result with
count 0 and the error field populated (logging the error), exists returns
`False` silently — while add, upsert, query, delete and reset log the error
with operation context and re-raise it. -/
theorem backend_error_propagation (e : Str) (documents ids : List Str)
    (name embedding_model persist_directory : Str) :
    ChromaClient.add_documents (.error e) documents
        = (.error e, ["Error adding documents to ChromaDB: ".data ++ e])
    ∧ ChromaClient.upsert_documents_run (.error e) documents
        = (.error e, ["Error upserting documents to ChromaDB: ".data ++ e])
    ∧ ChromaClient.search_run (.error e)
        = (.error e, ["Error performing semantic search: ".data ++ e])
    ∧ ChromaClient.delete_documents (.error e) ids
        = (.error e, ["Error deleting documents from ChromaDB: ".data ++ e])
    ∧ ChromaClient.reset_collection (.error e) name
        = (.error e, ["Error resetting collection: ".data ++ e])
    ∧ ChromaClient.get_collection_info name embedding_model persist_directory (.error e)
        = (⟨name, 0, embedding_model, persist_directory, some e⟩,
           ["Error getting collection info: ".data ++ e])
    ∧ ChromaClient.document_exists (.error e) = (.ok false, []) := by
  exact ⟨rfl, rfl, rfl, rfl, rfl, rfl, rfl⟩

/-! ### `chroma_client`: upsert state semantics (backend collection) -/

/-- Observable document lookup: the entry stored under an id, if any
(first match in the association list). -/
def collGet : CollectionData → Str → Option CollectionEntry
  | [], _ => none
  | p :: ps, id => if p.1 = id then some p.2 else collGet ps id

/-- Observable count: `collection.count()`, the number of stored documents. -/
def collCount (entries : CollectionData) : Nat := entries.length

/-- chromadb upsert of a single `(id, entry)`: replaces the stored entry in
place when the id exists, appends a new document otherwise. -/
def upsertOne (entries : CollectionData) (id : Str) (e : CollectionEntry) : CollectionData :=
  if (collGet entries id).isSome then
    entries.map (fun p => if p.1 = id then (id, e) else p)
  else entries ++ [(id, e)]

/-- chromadb `collection.upsert(ids, documents, metadatas)` as invoked by
`ChromaClient.upsert_documents`: processes the positional triples in order;
each document is embedded by the collection's embedding function. -/
def collUpsert (ef : EmbeddingFn) (entries : CollectionData)
    (ids documents : List Str) (metadatas : List (List (Str × Str))) : CollectionData :=
  (ids.zip (documents.zip metadatas)).foldl
    (fun acc t => upsertOne acc t.1 ⟨t.2.1, t.2.2, ef.embed t.2.1⟩) entries

theorem collGet_append (en₁ en₂ : CollectionData) (k : Str) :
    collGet (en₁ ++ en₂) k = (collGet en₁ k).or (collGet en₂ k) := by
  induction en₁ with
  | nil => rfl
  | cons a l ih =>
    by_cases ha : a.1 = k
    · simp only [List.cons_append, collGet]
      rw [if_pos ha, if_pos ha]
      rfl
    · simp only [List.cons_append, collGet]
      rw [if_neg ha, if_neg ha]
      exact ih

theorem collGet_map_ne (en : CollectionData) (id : Str) (e : CollectionEntry) (k : Str)
    (hk : k ≠ id) :
    collGet (en.map (fun p => if p.1 = id then (id, e) else p)) k = collGet en k := by
  induction en with
  | nil => rfl
  | cons a l ih =>
    rw [List.map_cons]
    by_cases ha : a.1 = id
    · rw [show (if a.1 = id then ((id, e) : Str × CollectionEntry) else a) = (id, e) from
        if_pos ha]
      simp only [collGet]
      rw [if_neg (fun h => hk (h : (id, e).1 = k).symm),
        if_neg (fun h : a.1 = k => hk (h.symm.trans ha))]
      exact ih
    · rw [show (if a.1 = id then ((id, e) : Str × CollectionEntry) else a) = a from if_neg ha]
      simp only [collGet]
      by_cases hak : a.1 = k
      · rw [if_pos hak, if_pos hak]
      · rw [if_neg hak, if_neg hak]
        exact ih

theorem collGet_map_eq (en : CollectionData) (id : Str) (e : CollectionEntry)
    (hpres : (collGet en id).isSome = true) :
    collGet (en.map (fun p => if p.1 = id then (id, e) else p)) id = some e := by
  induction en with
  | nil => simp [collGet] at hpres
  | cons a l ih =>
    rw [List.map_cons]
    by_cases ha : a.1 = id
    · rw [show (if a.1 = id then ((id, e) : Str × CollectionEntry) else a) = (id, e) from
        if_pos ha]
      simp [collGet]
    · rw [show (if a.1 = id then ((id, e) : Str × CollectionEntry) else a) = a from if_neg ha]
      have hpres' : (collGet l id).isSome = true := by
        simp only [collGet] at hpres
        rw [if_neg ha] at hpres
        exact hpres
      simp only [collGet]
      rw [if_neg ha]
      exact ih hpres'

/-- Lookup after a single upsert: the upserted id maps to the new entry,
every other id is untouched. -/
theorem collGet_upsertOne (en : CollectionData) (id : Str) (e : CollectionEntry) (k : Str) :
    collGet (upsertOne en id e) k = if k = id then some e else collGet en k := by
  rw [upsertOne]
  split
  · rename_i hpres
    by_cases hk : k = id
    · subst hk
      rw [if_pos rfl]
      exact collGet_map_eq en k e hpres
    · rw [if_neg hk]
      exact collGet_map_ne en id e k hk
  · rename_i habs
    have hnone : collGet en id = none := by
      cases hfind : collGet en id with
      | none => rfl
      | some p => rw [hfind] at habs; simp at habs
    by_cases hk : k = id
    · subst hk
      rw [if_pos rfl, collGet_append, hnone]
      simp [collGet]
    · rw [if_neg hk, collGet_append]
      have hsingle : collGet [(id, e)] k = none := by
        simp only [collGet]
        rw [if_neg (fun h => hk (h : (id, e).1 = k).symm)]
      rw [hsingle]
      cases collGet en k <;> rfl

/-- Count after a single upsert: unchanged when the id exists, one more
document otherwise. -/
theorem collCount_upsertOne (en : CollectionData) (id : Str) (e : CollectionEntry) :
    collCount (upsertOne en id e)
      = if (collGet en id).isSome then collCount en else collCount en + 1 := by
  rw [upsertOne]
  split <;> simp_all [collCount]

/-- Presence of a key is monotone under upserts. -/
theorem collGet_isSome_upsertOne (en : CollectionData) (id : Str) (e : CollectionEntry) (k : Str)
    (h : (collGet en k).isSome = true) : (collGet (upsertOne en id e) k).isSome = true := by
  rw [collGet_upsertOne]
  by_cases hk : k = id <;> simp [hk, h]

/-- Folding a batch of upserts over entries all of whose ids are already
present does not change the count. -/
theorem collCount_foldl_present (ef : EmbeddingFn)
    (trips : List (Str × Str × List (Str × Str))) :
    ∀ en : CollectionData, (∀ t ∈ trips, (collGet en t.1).isSome = true) →
      collCount (trips.foldl
        (fun acc t => upsertOne acc t.1 ⟨t.2.1, t.2.2, ef.embed t.2.1⟩) en) = collCount en := by
  induction trips with
  | nil => intro en _; rfl
  | cons t ts ih =>
    intro en h
    have ht : (collGet en t.1).isSome = true := h t (by simp)
    rw [List.foldl_cons, ih]
    · rw [collCount_upsertOne, if_pos ht]
    · intro t' ht'
      exact collGet_isSome_upsertOne en t.1 _ t'.1 (h t' (List.mem_cons_of_mem t ht'))

/-- Presence of a key is monotone under a whole batch. -/
theorem collGet_isSome_foldl (ef : EmbeddingFn)
    (trips : List (Str × Str × List (Str × Str))) :
    ∀ en : CollectionData, ∀ k, (collGet en k).isSome = true →
      (collGet (trips.foldl
        (fun acc t => upsertOne acc t.1 ⟨t.2.1, t.2.2, ef.embed t.2.1⟩) en) k).isSome = true := by
  induction trips with
  | nil => intro en k h; exact h
  | cons t ts ih =>
    intro en k h
    rw [List.foldl_cons]
    exact ih _ k (collGet_isSome_upsertOne en t.1 _ k h)

/-- After a batch every id of the batch is present. -/
theorem collGet_isSome_after_batch (ef : EmbeddingFn)
    (trips : List (Str × Str × List (Str × Str))) :
    ∀ en : CollectionData, ∀ t ∈ trips,
      (collGet (trips.foldl
        (fun acc t => upsertOne acc t.1 ⟨t.2.1, t.2.2, ef.embed t.2.1⟩) en) t.1).isSome = true := by
  induction trips with
  | nil => intro en t ht; simp at ht
  | cons t0 ts ih =>
    intro en t ht
    rw [List.foldl_cons]
    rcases List.mem_cons.mp ht with rfl | hts
    · refine collGet_isSome_foldl ef ts _ t.1 ?_
      rw [collGet_upsertOne, if_pos rfl]
      rfl
    · exact ih _ t hts

/-- Ids that do not occur in the batch keep their stored entry. -/
theorem collGet_foldl_not_mem (ef : EmbeddingFn)
    (trips : List (Str × Str × List (Str × Str))) :
    ∀ en : CollectionData, ∀ k, (∀ t ∈ trips, t.1 ≠ k) →
      collGet (trips.foldl
        (fun acc t => upsertOne acc t.1 ⟨t.2.1, t.2.2, ef.embed t.2.1⟩) en) k = collGet en k := by
  induction trips with
  | nil => intro en k _; rfl
  | cons t ts ih =>
    intro en k h
    rw [List.foldl_cons, ih _ k (fun t' ht' => h t' (List.mem_cons_of_mem t ht'))]
    rw [collGet_upsertOne, if_neg (fun hk => h t (by simp) hk.symm)]

/-- For an id that occurs in the batch, the entry stored after the batch
does not depend on the starting state. -/
theorem collGet_foldl_mem_indep (ef : EmbeddingFn)
    (trips : List (Str × Str × List (Str × Str))) :
    ∀ k, (∃ t ∈ trips, t.1 = k) → ∀ en en' : CollectionData,
      collGet (trips.foldl
        (fun acc t => upsertOne acc t.1 ⟨t.2.1, t.2.2, ef.embed t.2.1⟩) en) k
      = collGet (trips.foldl
        (fun acc t => upsertOne acc t.1 ⟨t.2.1, t.2.2, ef.embed t.2.1⟩) en') k := by
  induction trips with
  | nil => rintro k ⟨t, ht, -⟩; simp at ht
  | cons t0 ts ih =>
    rintro k hex en en'
    rw [List.foldl_cons, List.foldl_cons]
    by_cases hts : ∃ t ∈ ts, t.1 = k
    · exact ih k hts _ _
    · obtain ⟨t, ht, htk⟩ := hex
      rcases List.mem_cons.mp ht with rfl | hmem
      · have hnot : ∀ t' ∈ ts, t'.1 ≠ k := fun t' ht' h => hts ⟨t', ht', h⟩
        rw [collGet_foldl_not_mem ef ts _ k hnot, collGet_foldl_not_mem ef ts _ k hnot,
          collGet_upsertOne, collGet_upsertOne, if_pos htk.symm, if_pos htk.symm]
      · exact absurd ⟨t, hmem, htk⟩ hts

/-- C7: `upsert` is idempotent — running the same `(ids, documents,
metadatas)` batch twice leaves the collection with the same document count
and the same stored content for every id as running it once. -/
theorem upsert_documents_idempotent (ef : EmbeddingFn) (en : CollectionData)
    (ids documents : List Str) (metadatas : List (List (Str × Str))) :
    collCount (collUpsert ef (collUpsert ef en ids documents metadatas) ids documents metadatas)
      = collCount (collUpsert ef en ids documents metadatas)
    ∧ ∀ k, collGet (collUpsert ef (collUpsert ef en ids documents metadatas) ids documents metadatas) k
      = collGet (collUpsert ef en ids documents metadatas) k := by
  constructor
  · exact collCount_foldl_present ef _ _
      (fun t ht => collGet_isSome_after_batch ef _ en t ht)
  · intro k
    by_cases hk : ∃ t ∈ ids.zip (documents.zip metadatas), t.1 = k
    · exact collGet_foldl_mem_indep ef _ k hk _ _
    · exact collGet_foldl_not_mem ef _ _ k (fun t ht h => hk ⟨t, ht, h⟩)

/-! ### `local_db.LocalZoteroReader.get_items_with_text`: the SQL query

The query is modelled over an explicit relational database value, following
SQLite semantics: nested-loop LEFT JOINs in the order they appear in the
query (title, abstract, extra, notes, creators), `WHERE itemTypeID != 14`,
`GROUP BY` on the full non-aggregated select list, `GROUP_CONCAT` skipping
NULLs (NULL when all inputs are NULL), `ORDER BY dateModified DESC`, and a
`LIMIT` clause appended only when the Python `limit` argument is truthy. -/

structure ItemRow where
  itemID : Nat
  key : Str
  itemTypeID : Nat
  dateAdded : Str
  dateModified : Str
deriving DecidableEq

structure ItemDataRow where
  itemID : Nat
  fieldID : Nat
  valueID : Nat
deriving DecidableEq

structure ItemDataValueRow where
  valueID : Nat
  value : Str
deriving DecidableEq

structure ItemNoteRow where
  itemID : Nat
  parentItemID : Option Nat
  note : Option Str
deriving DecidableEq

structure ItemCreatorRow where
  itemID : Nat
  creatorID : Nat
deriving DecidableEq

structure CreatorRow where
  creatorID : Nat
  firstName : Option Str
  lastName : Option Str
deriving DecidableEq

/-- The tables of `zotero.sqlite` the query reads. -/
structure ZoteroDb where
  items : List ItemRow
  itemData : List ItemDataRow
  itemDataValues : List ItemDataValueRow
  itemNotes : List ItemNoteRow
  itemCreators : List ItemCreatorRow
  creators : List CreatorRow

/-- The chained LEFT JOINs `itemData` (on itemID and a fixed fieldID) →
`itemDataValues` for one item: one NULL row when no `itemData` row matches,
otherwise the joined value per match (NULL when the value row is missing). -/
def fieldValues (db : ZoteroDb) (iid fid : Nat) : List (Option Str) :=
  let ds := db.itemData.filter (fun d => d.itemID == iid && d.fieldID == fid)
  if ds.isEmpty then [none]
  else ds.flatMap fun d =>
    let vs := db.itemDataValues.filter (fun v => v.valueID == d.valueID)
    if vs.isEmpty then [none] else vs.map (fun v => some v.value)

/-- LEFT JOIN `itemNotes n ON i.itemID = n.parentItemID OR i.itemID =
n.itemID` for one item. -/
def noteValues (db : ZoteroDb) (iid : Nat) : List (Option Str) :=
  let ns := db.itemNotes.filter (fun n => n.parentItemID == some iid || n.itemID == iid)
  if ns.isEmpty then [none] else ns.map (fun n => n.note)

/-- The CASE expression over a joined creator row: `Last, First` when both
name parts are non-NULL, the bare last name when only it is, NULL otherwise. -/
def creatorCase (c : CreatorRow) : Option Str :=
  match c.firstName, c.lastName with
  | some f, some l => some (l ++ ", ".data ++ f)
  | none, some l => some l
  | _, none => none

/-- The chained LEFT JOINs `itemCreators` → `creators` for one item,
producing the CASE expression value per joined row. -/
def creatorValues (db : ZoteroDb) (iid : Nat) : List (Option Str) :=
  let ics := db.itemCreators.filter (fun ic => ic.itemID == iid)
  if ics.isEmpty then [none]
  else ics.flatMap fun ic =>
    let cs := db.creators.filter (fun c => c.creatorID == ic.creatorID)
    if cs.isEmpty then [none] else cs.map creatorCase

/-- One row of the join fan-out (the non-constant columns). -/
structure JoinedRow where
  title : Option Str
  abstract : Option Str
  extra : Option Str
  note : Option Str
  creator : Option Str
deriving DecidableEq

/-- The nested-loop LEFT JOIN fan-out for one item row, joins applied in
query order: the cross product of the matched title, abstract, extra, note
and creator rows. -/
def joinedRows (db : ZoteroDb) (i : ItemRow) : List JoinedRow :=
  (fieldValues db i.itemID 1).flatMap fun t =>
  (fieldValues db i.itemID 2).flatMap fun ab =>
  (fieldValues db i.itemID 16).flatMap fun ex =>
  (noteValues db i.itemID).flatMap fun n =>
  (creatorValues db i.itemID).map fun c => ⟨t, ab, ex, n, c⟩

/-- The GROUP BY key: every non-aggregated select column. -/
structure GroupKey where
  itemID : Nat
  key : Str
  itemTypeID : Nat
  dateAdded : Str
  dateModified : Str
  title : Option Str
  abstract : Option Str
  extra : Option Str
deriving DecidableEq

def groupKeyOf (i : ItemRow) (r : JoinedRow) : GroupKey :=
  ⟨i.itemID, i.key, i.itemTypeID, i.dateAdded, i.dateModified, r.title, r.abstract, r.extra⟩

/-- All joined rows of the query after the `WHERE i.itemTypeID != 14`
filter, keyed by their GROUP BY key. -/
def allRows (db : ZoteroDb) : List (GroupKey × JoinedRow) :=
  (db.items.filter (fun i => i.itemTypeID != 14)).flatMap fun i =>
    (joinedRows db i).map fun r => (groupKeyOf i r, r)

/-- Distinct GROUP BY keys, in first-appearance order (structural
recursion over the row keys with an accumulator of keys already seen). -/
def uniqueKeysAux (seen : List GroupKey) : List GroupKey → List GroupKey
  | [] => []
  | k :: ks => if k ∈ seen then uniqueKeysAux seen ks else k :: uniqueKeysAux (k :: seen) ks

/-- Distinct GROUP BY keys, in first-appearance order. -/
def uniqueKeys (l : List GroupKey) : List GroupKey := uniqueKeysAux [] l

theorem mem_uniqueKeysAux : ∀ (l : List GroupKey) (seen : List GroupKey) (k : GroupKey),
    k ∈ uniqueKeysAux seen l → k ∈ l := by
  intro l
  induction l with
  | nil =>
      intro seen k h
      simp [uniqueKeysAux] at h
  | cons k0 ks ih =>
      intro seen k h
      rw [uniqueKeysAux] at h
      split at h
      · exact List.mem_cons_of_mem _ (ih seen k h)
      · rcases List.mem_cons.mp h with rfl | h2
        · exact List.mem_cons_self _ _
        · exact List.mem_cons_of_mem _ (ih _ k h2)

theorem mem_uniqueKeys (l : List GroupKey) (k : GroupKey) (h : k ∈ uniqueKeys l) : k ∈ l :=
  mem_uniqueKeysAux l [] k h

/-- `GROUP_CONCAT(expr, sep)`: skips NULL inputs, NULL when all are NULL. -/
def groupConcat (sep : Str) (vals : List (Option Str)) : Option Str :=
  let vs := vals.filterMap id
  if vs.isEmpty then none else some (joinSep sep vs)

/-- One aggregated output row (`ZoteroItem` as built in the row loop of
`get_items_with_text`; fulltext extraction is unimplemented). -/
def aggRow (db : ZoteroDb) (k : GroupKey) : ZoteroItem :=
  let grp := ((allRows db).filter (fun r => decide (r.1 = k))).map (fun r => r.2)
  { item_id := k.itemID, key := k.key, item_type_id := k.itemTypeID,
    title := k.title, abstract := k.abstract, extra := k.extra,
    creators := groupConcat "; ".data (grp.map (fun r => r.creator)),
    fulltext := none,
    notes := groupConcat [' '] (grp.map (fun r => r.note)),
    date_added := some k.dateAdded, date_modified := some k.dateModified }

/-- The grouped query result before ORDER BY / LIMIT. -/
def groupedItems (db : ZoteroDb) : List ZoteroItem :=
  (uniqueKeys ((allRows db).map Prod.fst)).map (aggRow db)

/-- The ORDER BY sort key of an output row (`i.dateModified`; SQL NULLs
sort before every string). -/
def orderKey (it : ZoteroItem) : Str := it.date_modified.getD []

/-- `a` may precede `b` under `ORDER BY dateModified DESC`. -/
def itemsDesc (a b : ZoteroItem) : Prop := orderKey b ≤ orderKey a

instance : DecidableRel itemsDesc := fun a b =>
  (inferInstance : Decidable (orderKey b ≤ orderKey a))

instance : IsTotal ZoteroItem itemsDesc :=
  ⟨fun a b => le_total (orderKey b) (orderKey a)⟩

instance : IsTrans ZoteroItem itemsDesc :=
  ⟨fun _ _ _ h1 h2 => le_trans h2 h1⟩

/-- The Python-side `LIMIT` handling: the clause is appended only when
`limit` is truthy (`None` and `0` are falsy; SQLite treats a negative limit
as no limit). -/
def applyLimit (limit : Option Int) (rows : List ZoteroItem) : List ZoteroItem :=
  match limit with
  | none => rows
  | some l => if l = 0 then rows else if l < 0 then rows else rows.take l.toNat

/-- `LocalZoteroReader.get_items_with_text`: the full query — join, filter,
group, aggregate, order descending by modification date, limit. -/
def get_items_with_text (db : ZoteroDb) (limit : Option Int) : List ZoteroItem :=
  applyLimit limit (List.insertionSort itemsDesc (groupedItems db))

/-- C9: `limit=0` is falsy, so no LIMIT clause is emitted and the call
returns all items, exactly like `limit=None`. -/
theorem limit_zero_returns_all (db : ZoteroDb) :
    get_items_with_text db (some 0) = get_items_with_text db none := by
  simp [get_items_with_text, applyLimit]

/-- C8: every extracted record has an item type different from the reserved
attachment type 14, and the result is ordered by modification date,
most recently modified first, for every limit argument. -/
theorem extraction_excludes_attachments_and_sorted (db : ZoteroDb) (limit : Option Int) :
    (∀ it ∈ get_items_with_text db limit, it.item_type_id ≠ 14)
    ∧ (get_items_with_text db limit).Pairwise itemsDesc := by
  have hsorted : (List.insertionSort itemsDesc (groupedItems db)).Pairwise itemsDesc :=
    List.sorted_insertionSort itemsDesc (groupedItems db)
  constructor
  · intro it hit
    have h1 : it ∈ List.insertionSort itemsDesc (groupedItems db) := by
      rcases limit with - | l
      · exact hit
      · rw [get_items_with_text, applyLimit] at hit
        split at hit
        · exact hit
        · split at hit
          · exact hit
          · exact (List.take_sublist _ _).subset hit
    have h2 : it ∈ groupedItems db :=
      (List.perm_insertionSort itemsDesc _).mem_iff.mp h1
    rw [groupedItems] at h2
    obtain ⟨k, hk, rfl⟩ := List.mem_map.mp h2
    have hk2 : k ∈ (allRows db).map Prod.fst := mem_uniqueKeys _ k hk
    obtain ⟨⟨k', r⟩, hmem, hfst⟩ := List.mem_map.mp hk2
    rw [allRows] at hmem
    obtain ⟨i, hi, hir⟩ := List.mem_flatMap.mp hmem
    have hty : (i.itemTypeID != 14) = true := (List.mem_filter.mp hi).2
    obtain ⟨r0, -, hpair⟩ := List.mem_map.mp hir
    have hkey : k = groupKeyOf i r0 := by
      rw [← hfst]
      exact congrArg Prod.fst hpair.symm
    have : (aggRow db k).item_type_id = i.itemTypeID := by
      rw [hkey]; rfl
    rw [this]
    simpa using hty
  · rcases limit with - | l
    · exact hsorted
    · rw [get_items_with_text, applyLimit]
      split
      · exact hsorted
      · split
        · exact hsorted
        · exact hsorted.sublist (List.take_sublist _ _)

/-- A library with one item carrying two notes and two creators: the input
on which the extraction query's join fan-out shows. -/
def fanoutDb : ZoteroDb :=
  { items := [⟨1, "KEYA".data, 2, "2024-01-01".data, "2024-01-02".data⟩],
    itemData := [], itemDataValues := [],
    itemNotes := [⟨10, some 1, some "n1".data⟩, ⟨11, some 1, some "n2".data⟩],
    itemCreators := [⟨1, 1⟩, ⟨1, 2⟩],
    creators := [⟨1, some "a".data, some "A".data⟩, ⟨2, some "b".data, some "B".data⟩] }

/-- C3 evaluated on the failing input: an item with notes `n1`, `n2` and
creators `A, a`, `B, b` is extracted with every note repeated once per
creator row and every creator repeated once per note row — the joined
aggregate strings are not the one-occurrence-each joins the claim states
(which would be `n1 n2` and `A, a; B, b`). -/
theorem note_creator_fanout_duplication :
    (get_items_with_text fanoutDb none).map (fun it => (it.notes, it.creators))
      = [(some "n1 n1 n2 n2".data, some "A, a; B, b; A, a; B, b".data)]
    ∧ some "n1 n1 n2 n2".data ≠ some "n1 n2".data
    ∧ some "A, a; B, b; A, a; B, b".data ≠ some "A, a; B, b".data := by
  refine ⟨rfl, by decide, by decide⟩

/-- A library with a single plain item and no related rows. -/
def sampleDb : ZoteroDb :=
  { items := [⟨1, "ABCD2345".data, 2, "2024-01-01 00:00:00".data, "2024-01-02 00:00:00".data⟩],
    itemData := [], itemDataValues := [], itemNotes := [], itemCreators := [], creators := [] }

/-- Witness for C8 at a concrete input: the single extracted record of the
sample library has a non-attachment type, and the result list is sorted. -/
theorem extraction_excludes_attachments_and_sorted_witness :
    ({ item_id := 1, key := "ABCD2345".data, item_type_id := 2,
       date_added := some "2024-01-01 00:00:00".data,
       date_modified := some "2024-01-02 00:00:00".data } : ZoteroItem).item_type_id ≠ 14
    ∧ (get_items_with_text sampleDb none).Pairwise itemsDesc := by
  refine ⟨(extraction_excludes_attachments_and_sorted sampleDb none).1 _ ?_,
          (extraction_excludes_attachments_and_sorted sampleDb none).2⟩
  have heq : get_items_with_text sampleDb none
      = [{ item_id := 1, key := "ABCD2345".data, item_type_id := 2,
           date_added := some "2024-01-01 00:00:00".data,
           date_modified := some "2024-01-02 00:00:00".data }] := by rfl
  rw [heq]
  exact List.mem_singleton_self _

/-- Witness for C5 at a concrete input: for an item with only a title, the
searchable text is the joined section list and the Title label heads
exactly one section. -/
theorem searchable_text_sections_witness :
    ZoteroItem.get_searchable_text { item_id := 0, key := [], item_type_id := 0, title := some "T".data }
      = joinSep sectionSep
          ((searchableSections { item_id := 0, key := [], item_type_id := 0, title := some "T".data }).map
            fun p => p.1 ++ p.2)
    ∧ ((searchableSections { item_id := 0, key := [], item_type_id := 0, title := some "T".data }).map
        Prod.fst).count titleLabel
      = if pyTruthy (some "T".data) then 1 else 0 := by
  refine ⟨(searchable_text_sections _).1, ?_⟩
  exact (searchable_text_sections _).2.2 titleLabel (some "T".data) (by simp [sectionCandidates])
